import Mathlib

/-!
Shallow embedding of the legal-contract search pipeline
(`mcp_flight_search/services/search_service.py` and
`mcp_flight_search/services/serpapi_client.py`) together with proofs of the
specification claims about it.

Python dictionaries that always carry the same keys are modelled as Lean
structures; `dict.get(k, default)` on possibly-absent keys is modelled with
`Option` fields and `Option.getD`.  Python strings are Lean `String`s;
`str.lower()` is modelled for the ASCII range (all case-carrying data in the
program is ASCII) and the `in` substring operator is modelled by an explicit
contiguous-sublist scan on character lists.
-/

/-- Model of Python `str.lower()` restricted to ASCII case mapping. -/
def pyLower (s : String) : String :=
  String.mk (s.data.map Char.toLower)

/-- `charsPre n h` is true when the character list `n` starts the list `h`. -/
def charsPre : List Char → List Char → Bool
  | [], _ => true
  | _ :: _, [] => false
  | a :: as, b :: bs => a = b && charsPre as bs

/-- `hasSub n h` is true when `n` occurs as a contiguous run inside `h`;
this is Python's `n in h` for strings, on character lists. -/
def hasSub : List Char → List Char → Bool
  | n, [] => n.isEmpty
  | n, c :: cs => charsPre n (c :: cs) || hasSub n cs

/-- Python `needle in hay` on strings. -/
def strIn (needle hay : String) : Bool :=
  hasSub needle.data hay.data

/-- One raw organic search result as returned by the search gateway.
The Python code reads the keys `title`, `snippet`, `link` and `location`
only through `dict.get` with per-call defaults, so each is an `Option`. -/
structure SearchResult where
  title : Option String
  snippet : Option String
  link : Option String
  location : Option String
deriving DecidableEq, Repr

/-- A whole gateway response dictionary.  The code inspects the `error` key
(`Option`), reads `organic_results` with default `[]` (so a missing key and
an empty list are observationally identical and are conflated), and treats
every remaining key as opaque pass-through metadata (`extra`). -/
structure SearchResponse where
  error : Option String
  organic_results : List SearchResult
  extra : List (String × String)
deriving DecidableEq, Repr

/-- The de-duplication key of a result: `result.get("link", "")`. -/
def urlOf (r : SearchResult) : String :=
  r.link.getD ""

/-- The body of the two `for` loops of `combine_search_results`
(search_service.py lines 260-275): fold every result into the accumulated
`(combined_organic, seen_urls)` state, keeping a result only when its URL
has not been seen yet.  Python's `set` of seen URLs is modelled as a list
queried by membership. -/
def addUnique (st : List SearchResult × List String) (results : List SearchResult) :
    List SearchResult × List String :=
  results.foldl
    (fun st r =>
      let url := urlOf r
      if url ∈ st.2 then st else (st.1 ++ [r], url :: st.2))
    st

/-- `combine_search_results` (search_service.py lines 247-281).  Note the
source combines in the argument order `(search_results, targeted_results)`
with the *targeted* organic results folded in first. -/
def combine_search_results (primary_results targeted_results : SearchResponse) :
    SearchResponse :=
  if primary_results.error.isSome then primary_results
  else if targeted_results.error.isSome then primary_results
  else
    let st1 := addUnique ([], []) targeted_results.organic_results
    let st2 := addUnique st1 primary_results.organic_results
    { primary_results with organic_results := st2.1 }

/-- Structural (non-accumulator) form of the URL de-duplication pass:
drop every result whose URL is in `seen` or occurred earlier in the list. -/
def dedupFrom (seen : List String) : List SearchResult → List SearchResult
  | [] => []
  | r :: rs =>
    let u := urlOf r
    if u ∈ seen then dedupFrom seen rs else r :: dedupFrom (u :: seen) rs

/-- The seen-URL set after a de-duplication pass. -/
def seenAfter (seen : List String) : List SearchResult → List String
  | [] => seen
  | r :: rs =>
    let u := urlOf r
    if u ∈ seen then seenAfter seen rs else seenAfter (u :: seen) rs

theorem addUnique_eq (l : List SearchResult) :
    ∀ acc seen, addUnique (acc, seen) l = (acc ++ dedupFrom seen l, seenAfter seen l) := by
  induction l with
  | nil => intro acc seen; simp [addUnique, dedupFrom, seenAfter]
  | cons r rs ih =>
    intro acc seen
    by_cases h : urlOf r ∈ seen
    · simpa [addUnique, dedupFrom, seenAfter, h, List.foldl_cons] using ih acc seen
    · have := ih (acc ++ [r]) (urlOf r :: seen)
      simpa [addUnique, dedupFrom, seenAfter, h, List.foldl_cons, List.append_assoc] using this

theorem combine_organic_eq (p t : SearchResponse)
    (hp : p.error = none) (ht : t.error = none) :
    (combine_search_results p t).organic_results =
      dedupFrom [] t.organic_results ++
        dedupFrom (seenAfter [] t.organic_results) p.organic_results := by
  have h1 := addUnique_eq t.organic_results [] []
  have h2 := addUnique_eq p.organic_results (dedupFrom [] t.organic_results)
      (seenAfter [] t.organic_results)
  simp [combine_search_results, hp, ht, h1, h2]

theorem dedupFrom_sublist (l : List SearchResult) :
    ∀ seen, (dedupFrom seen l).Sublist l := by
  induction l with
  | nil => intro seen; simp [dedupFrom]
  | cons r rs ih =>
    intro seen
    by_cases h : urlOf r ∈ seen
    · simp only [dedupFrom, h, if_pos]
      exact (ih seen).cons r
    · simp only [dedupFrom, h, if_neg, not_false_iff]
      exact (ih (urlOf r :: seen)).cons₂ r

theorem dedupFrom_url_not_seen (l : List SearchResult) :
    ∀ seen r, r ∈ dedupFrom seen l → urlOf r ∉ seen := by
  induction l with
  | nil => intro seen r hr; simp [dedupFrom] at hr
  | cons x xs ih =>
    intro seen r hr
    by_cases h : urlOf x ∈ seen
    · simp only [dedupFrom, h, if_pos] at hr
      exact ih seen r hr
    · simp only [dedupFrom, h, if_neg, not_false_iff, List.mem_cons] at hr
      rcases hr with rfl | hr
      · exact h
      · have := ih (urlOf x :: seen) r hr
        intro hc
        exact this (List.mem_cons_of_mem _ hc)

theorem dedupFrom_urls_nodup (l : List SearchResult) :
    ∀ seen, ((dedupFrom seen l).map urlOf).Nodup := by
  induction l with
  | nil => intro seen; simp [dedupFrom]
  | cons x xs ih =>
    intro seen
    by_cases h : urlOf x ∈ seen
    · simp only [dedupFrom, h, if_pos]
      exact ih seen
    · simp only [dedupFrom, h, if_neg, not_false_iff, List.map_cons, List.nodup_cons]
      refine ⟨?_, ih (urlOf x :: seen)⟩
      intro hc
      rcases List.mem_map.mp hc with ⟨r, hr, hu⟩
      have := dedupFrom_url_not_seen xs (urlOf x :: seen) r hr
      exact this (hu ▸ List.mem_cons_self _ _)

theorem seenAfter_mono (l : List SearchResult) :
    ∀ seen u, u ∈ seen → u ∈ seenAfter seen l := by
  induction l with
  | nil => intro seen u h; simpa [seenAfter] using h
  | cons x xs ih =>
    intro seen u h
    by_cases hx : urlOf x ∈ seen
    · simp only [seenAfter, hx, if_pos]
      exact ih seen u h
    · simp only [seenAfter, hx, if_neg, not_false_iff]
      exact ih (urlOf x :: seen) u (List.mem_cons_of_mem _ h)

theorem dedupFrom_url_seenAfter (l : List SearchResult) :
    ∀ seen r, r ∈ dedupFrom seen l → urlOf r ∈ seenAfter seen l := by
  induction l with
  | nil => intro seen r hr; simp [dedupFrom] at hr
  | cons x xs ih =>
    intro seen r hr
    by_cases h : urlOf x ∈ seen
    · simp only [dedupFrom, h, if_pos] at hr
      simp only [seenAfter, h, if_pos]
      exact ih seen r hr
    · simp only [dedupFrom, h, if_neg, not_false_iff, List.mem_cons] at hr
      simp only [seenAfter, h, if_neg, not_false_iff]
      rcases hr with rfl | hr
      · exact seenAfter_mono xs _ _ (List.mem_cons_self _ _)
      · exact ih (urlOf x :: seen) r hr

theorem mem_seenAfter_of_mem (l : List SearchResult) :
    ∀ seen x, x ∈ l → urlOf x ∈ seenAfter seen l := by
  induction l with
  | nil => intro seen x hx; simp at hx
  | cons y ys ih =>
    intro seen x hx
    by_cases h : urlOf y ∈ seen
    · simp only [seenAfter, h, if_pos]
      rcases List.mem_cons.mp hx with rfl | hx
      · exact seenAfter_mono ys seen _ h
      · exact ih seen x hx
    · simp only [seenAfter, h, if_neg, not_false_iff]
      rcases List.mem_cons.mp hx with rfl | hx
      · exact seenAfter_mono ys _ _ (List.mem_cons_self _ _)
      · exact ih (urlOf y :: seen) x hx

theorem mem_of_seenAfter (l : List SearchResult) :
    ∀ seen u, u ∈ seenAfter seen l → u ∈ seen ∨ u ∈ (dedupFrom seen l).map urlOf := by
  induction l with
  | nil => intro seen u h; left; simpa [seenAfter] using h
  | cons x xs ih =>
    intro seen u h
    by_cases hx : urlOf x ∈ seen
    · simp only [seenAfter, hx, if_pos] at h
      simp only [dedupFrom, hx, if_pos]
      exact ih seen u h
    · simp only [seenAfter, hx, if_neg, not_false_iff] at h
      simp only [dedupFrom, hx, if_neg, not_false_iff, List.map_cons, List.mem_cons]
      rcases ih (urlOf x :: seen) u h with h1 | h1
      · rcases List.mem_cons.mp h1 with rfl | h1
        · right; left; rfl
        · left; exact h1
      · right; right; exact h1

/-- The fields of the analysis dictionary read by the search/ranking
functions under verification (`contract_type`, `location`, `key_terms`);
`analyze_contract` always populates all of them. -/
structure Analysis where
  location : String
  contract_type : String
  key_terms : List String
deriving DecidableEq, Repr

/-- `(result.get("title", "") + " " + result.get("snippet", "")).lower()`
from `calculate_relevance` (search_service.py line 461). -/
def resultText (result : SearchResult) : String :=
  pyLower (result.title.getD "" ++ " " ++ result.snippet.getD "")

/-- The numeric score accumulated by `calculate_relevance`
(search_service.py lines 460-474).  Note the source tests the raw
`analysis["contract_type"]` against the lowercased text, but lowercases
the location and each key term before testing. -/
def relevanceScore (result : SearchResult) (analysis : Analysis) : Nat :=
  let text := resultText result
  let s1 := if strIn analysis.contract_type text then 3 else 0
  let s2 := s1 + (if strIn (pyLower analysis.location) text then 2 else 0)
  analysis.key_terms.foldl (fun s term => if strIn (pyLower term) text then s + 1 else s) s2

/-- The tier thresholds of `calculate_relevance` (lines 476-481). -/
def tierOf (score : Nat) : String :=
  if score ≥ 4 then "High" else if score ≥ 2 then "Medium" else "Low"

/-- `calculate_relevance` (search_service.py lines 458-481). -/
def calculate_relevance (result : SearchResult) (analysis : Analysis) : String :=
  tierOf (relevanceScore result analysis)

/-- Numeric order on the relevance tiers, Low < Medium < High. -/
def tierRank (tier : String) : Nat :=
  if tier = "High" then 2 else if tier = "Medium" then 1 else 0

/-- The `contract_types` keyword table of `determine_contract_type`
(search_service.py lines 88-96), in definition order. -/
def contractTypesTable : List (String × List String) :=
  [ ("employment", ["employment", "employee", "employer", "job", "salary", "wages", "position"]),
    ("lease", ["lease", "rent", "tenant", "landlord", "premises", "property"]),
    ("purchase", ["purchase", "buy", "sell", "sale", "buyer", "seller", "goods"]),
    ("service", ["service", "services", "provider", "client", "work", "perform"]),
    ("partnership", ["partnership", "partner", "joint venture", "collaborate"]),
    ("nda", ["confidential", "non-disclosure", "proprietary", "trade secret"]),
    ("license", ["license", "licensing", "intellectual property", "copyright", "patent"]) ]

/-- `sum(1 for keyword in keywords if keyword in text_lower)` (line 102). -/
def hitCount (text_lower : String) (keywords : List String) : Nat :=
  (keywords.filter (fun kw => strIn kw text_lower)).length

/-- Python `max(iterable, key=f)` keeps the first element and replaces it
only on a strictly greater key, so ties go to the earliest element.
`pickMax x l` is that scan over `x :: l` with the score as the key. -/
def pickMax (x : String × Nat) : List (String × Nat) → String × Nat
  | [] => x
  | y :: ys => if y.2 > x.2 then pickMax y ys else pickMax x ys

/-- The loop body of lines 101-104: a table entry contributes
`(contract_type, score)` to `type_scores` exactly when its score is
positive. -/
def typeScore (text_lower : String) (p : String × List String) :
    Option (String × Nat) :=
  let score := hitCount text_lower p.2
  if score > 0 then some (p.1, score) else none

/-- `determine_contract_type` (search_service.py lines 86-109).  Python's
`type_scores` dict keeps insertion order, which is the table definition
order restricted to positive scores, and `max(type_scores,
key=type_scores.get)` picks the first key with the greatest score. -/
def determine_contract_type (text : String) : String :=
  let text_lower := pyLower text
  let type_scores := contractTypesTable.filterMap (typeScore text_lower)
  match type_scores with
  | [] => "general contract"
  | x :: xs => (pickMax x xs).1

/-- `is_direct_document_link` (search_service.py lines 361-396). -/
def is_direct_document_link (url title : String) : Bool :=
  let url_lower := pyLower url
  let title_lower := pyLower title
  ([".pdf", ".doc", ".docx", ".txt"].any (fun ext => strIn ext url_lower))
  || (["download", "document", "file", "attachment", "forms",
       "templates", "samples", "examples", "contracts"].any
        (fun ind => strIn ind url_lower))
  || (["download", "pdf", "template", "form", "sample",
       "example", "document", "[pdf]", "(pdf)", ".pdf"].any
        (fun ind => strIn ind title_lower))
  || (["sec.gov", "courts.gov", "lawinsider.com", "contractstandards.com",
       "findlaw.com", "justia.com", "docracy.com", "lawdepot.com"].any
        (fun site => strIn site url_lower))

/-- The predicate applied to each result by `prioritize_document_links`
(lines 348-353): lowercase the `link` and `title` values (defaulting to
`""`) and test `is_direct_document_link`. -/
def isDirectRes (r : SearchResult) : Bool :=
  is_direct_document_link (pyLower (r.link.getD "")) (pyLower (r.title.getD ""))

/-- `prioritize_document_links` (search_service.py lines 341-359):
the loop appends each result to `direct_docs` or `web_pages` and the
function returns `direct_docs + web_pages`. -/
def prioritize_document_links (results : List SearchResult) : List SearchResult :=
  let dw := results.foldl
    (fun dw r => if isDirectRes r then (dw.1 ++ [r], dw.2) else (dw.1, dw.2 ++ [r]))
    ([], [])
  dw.1 ++ dw.2

/-- `determine_link_type` (search_service.py lines 398-421). -/
def determine_link_type (url title : String) : String :=
  let url_lower := pyLower url
  let title_lower := pyLower title
  if [".pdf", ".doc", ".docx"].any (fun ext => strIn ext url_lower) then
    "Direct Document"
  else if ["template", "form", "sample"].any
      (fun word => strIn word url_lower || strIn word title_lower) then
    "Template/Form"
  else if ["sec.gov", "lawinsider.com", "contractstandards.com"].any
      (fun site => strIn site url_lower) then
    "Legal Database"
  else if strIn "courts.gov" url_lower || strIn "court" title_lower then
    "Court Document"
  else
    "Legal Resource"

/-- The `source_descriptions` table of `get_source_info` (lines 427-436). -/
def sourceDescriptions : List (String × String) :=
  [ ("sec.gov", "SEC Filing"),
    ("courts.gov", "Court System"),
    ("lawinsider.com", "Law Insider Database"),
    ("contractstandards.com", "Contract Standards"),
    ("findlaw.com", "FindLaw Resource"),
    ("justia.com", "Justia Legal Portal"),
    ("docracy.com", "Docracy Templates"),
    ("lawdepot.com", "LawDepot Forms") ]

/-- `get_source_info` (search_service.py lines 423-441). -/
def get_source_info (domain link_type : String) : String :=
  match sourceDescriptions.lookup domain with
  | some label => label ++ " (" ++ link_type ++ ")"
  | none => domain ++ " (" ++ link_type ++ ")"

/-- `create_clickable_description` (search_service.py lines 443-456).
The marker prefixes are transcribed character-for-character from the
source file, which stores mojibake (UTF-8 emoji bytes re-decoded as
cp1252) rather than the emoji themselves. -/
def create_clickable_description (title link_type domain : String) : String :=
  if link_type = "Direct Document" then
    "ðŸ“„ Direct Download: " ++ title
  else if link_type = "Template/Form" then
    "ðŸ“ Template/Form: " ++ title
  else if link_type = "Legal Database" then
    "ðŸ›ï¸ Legal Database Entry: " ++ title
  else if link_type = "Court Document" then
    "âš–ï¸ Court Document: " ++ title
  else
    "ðŸ”— Legal Resource: " ++ title

/-- Characters allowed in a URL scheme by Python's `urllib.parse`
(letters, digits, `+`, `-`, `.`). -/
def schemeChars (c : Char) : Bool :=
  c.isAlphanum || c = '+' || c = '-' || c = '.'

/-- Model of `urllib.parse.urlparse(url).netloc`: strip a valid scheme
(`name:` with `name` starting with a letter and made of scheme
characters), then, when the remainder starts with `//`, the authority runs
up to the next `/`, `?` or `#`; otherwise the authority is empty.
`none` models the `ValueError` urlparse raises on mismatched square
brackets in the authority (the only raising path for string inputs),
which `extract_domain` catches. -/
def parseNetloc (url : String) : Option String :=
  let cs := url.data
  let afterScheme :=
    match cs.findIdx? (fun c => c == ':') with
    | some i =>
      if 0 < i ∧ (cs.headD ' ').isAlpha = true ∧ (cs.take i).all schemeChars = true then
        cs.drop (i + 1)
      else cs
    | none => cs
  if afterScheme.take 2 = ['/', '/'] then
    let netloc := (afterScheme.drop 2).takeWhile
      (fun c => !(c == '/' || c == '?' || c == '#'))
    if (netloc.contains '[') ≠ (netloc.contains ']') then none
    else some (String.mk netloc)
  else some ""

/-- Python `s.replace("www.", "")`: scan left to right and drop each
non-overlapping occurrence of `www.`. -/
def stripWWW : List Char → List Char
  | 'w' :: 'w' :: 'w' :: '.' :: rest => stripWWW rest
  | c :: rest => c :: stripWWW rest
  | [] => []

/-- `domain.replace("www.", "")` on strings. -/
def pyRemoveWWW (s : String) : String :=
  String.mk (stripWWW s.data)

/-- `extract_domain` (search_service.py lines 483-490): parse the
authority, return it with every `www.` occurrence removed, or the
sentinel `"Unknown"` when the authority is empty or parsing raised. -/
def extract_domain (url : String) : String :=
  match parseNetloc url with
  | none => "Unknown"
  | some domain => if domain ≠ "" then pyRemoveWWW domain else "Unknown"

/-- One formatted similar-contract record (search_service.py lines
325-336). -/
structure FormattedDoc where
  title : String
  url : String
  snippet : String
  contract_type : String
  location : String
  relevance_score : String
  source : String
  link_type : String
  domain : String
  clickable_description : String
deriving DecidableEq, Repr

/-- The body of the formatting loop of `format_legal_results`
(search_service.py lines 307-336) applied to one prioritized result. -/
def formatOne (analysis : Analysis) (result : SearchResult) : FormattedDoc :=
  let title := result.title.getD "Untitled Document"
  let url := result.link.getD ""
  let snippet := result.snippet.getD "No description available"
  let relevance_score := calculate_relevance result analysis
  let link_type := determine_link_type url title
  let domain := extract_domain url
  { title := title,
    url := url,
    snippet := snippet,
    contract_type := analysis.contract_type,
    location := result.location.getD analysis.location,
    relevance_score := relevance_score,
    source := get_source_info domain link_type,
    link_type := link_type,
    domain := domain,
    clickable_description := create_clickable_description title link_type domain }

/-- `format_legal_results` (search_service.py lines 283-339): empty
organic results short-circuit to `[]`; otherwise the loop runs over
`prioritized_results[:12]`. -/
def format_legal_results (search_results : SearchResponse) (analysis : Analysis) :
    List FormattedDoc :=
  let organic_results := search_results.organic_results
  if organic_results.isEmpty then []
  else ((prioritize_document_links organic_results).take 12).map (formatOne analysis)

/-- The value `search_similar_contracts` produces after the gateway calls:
either the `{"error": message}` substitute payload or the formatted
document list (search_service.py lines 205-213). -/
inductive SimilarOutcome where
  | err (msg : String)
  | docs (l : List FormattedDoc)
deriving DecidableEq, Repr

/-- The merge-then-check tail of `search_similar_contracts`
(search_service.py lines 205-213), as a function of the two gateway
responses.  The source passes `(search_results, targeted_results)` to
`combine_search_results` in that order. -/
def search_similar_pipeline (primary targeted : SearchResponse) (analysis : Analysis) :
    SimilarOutcome :=
  let combined := combine_search_results primary targeted
  match combined.error with
  | some e => SimilarOutcome.err e
  | none => SimilarOutcome.docs (format_legal_results combined analysis)

/-- The location sentinel used throughout the pipeline. -/
def sentinelLocation : String := "Location not specified"

/-- Python `f'"{s}"'`. -/
def quoteStr (s : String) : String := "\"" ++ s ++ "\""

/-- The fixed `legal_terms` block of `prepare_legal_search_params`
(serpapi_client.py lines 61-66). -/
def legalTermsList : List String :=
  [ "agreement template",
    "legal document sample",
    "contract form",
    "site:sec.gov OR site:courts.gov OR site:justia.com OR site:findlaw.com OR site:lawinsider.com OR site:contractstandards.com" ]

/-- The quoted key-term parts appended by `prepare_legal_search_params`
(serpapi_client.py lines 53-58): skipped entirely when the key-terms list
is empty or is the fallback `["Standard contract terms"]`; otherwise the
first two terms are considered and those longer than 3 characters are
quoted. -/
def keyTermParts (analysis : Analysis) : List String :=
  if analysis.key_terms.isEmpty || analysis.key_terms == ["Standard contract terms"] then []
  else ((analysis.key_terms.take 2).filter (fun t => decide (t.length > 3))).map quoteStr

/-- The first `query_parts` entry (serpapi_client.py line 45). -/
def basePart (analysis : Analysis) : String :=
  quoteStr (analysis.contract_type ++ " contract")
    ++ " filetype:pdf OR filetype:doc OR filetype:docx"

/-- The full `query_parts` list built by `prepare_legal_search_params`
(serpapi_client.py lines 41-67): base part, then the quoted location when
it is truthy and not the sentinel, then the quoted key terms, then the
fixed legal terms. -/
def legalQueryParts (analysis : Analysis) : List String :=
  basePart analysis ::
    ((if analysis.location ≠ "" ∧ analysis.location ≠ sentinelLocation then
        [quoteStr analysis.location]
      else [])
      ++ keyTermParts analysis ++ legalTermsList)

/-- The SerpAPI parameter dictionary of the primary search (the constant
`api_key` configuration value is omitted). -/
structure SerpParams where
  q : String
  engine : String
  hl : String
  gl : String
  num : Nat
  filter : String
deriving DecidableEq, Repr

/-- `prepare_legal_search_params` (serpapi_client.py lines 30-83). -/
def prepare_legal_search_params (analysis : Analysis) : SerpParams :=
  { q := String.intercalate " " (legalQueryParts analysis),
    engine := "google",
    hl := "en",
    gl := "us",
    num := 15,
    filter := "1" }

/-- C1: the spec's scenario 2 claims that when the primary gateway
response is `{"error": "quota exceeded"}` and the targeted response is a
valid result list, the merge returns the targeted list unchanged and the
pipeline produces no top-level error.  On the code this is false: at this
concrete input the merge returns the primary error response (its organic
list differs from the targeted one) and the pipeline yields a top-level
error. -/
theorem claim1_counterexample :
    combine_search_results
        { error := some "quota exceeded", organic_results := [], extra := [] }
        { error := none,
          organic_results :=
            [{ title := some "T", snippet := none,
               link := some "http://a.com", location := none }],
          extra := [] }
      = { error := some "quota exceeded", organic_results := [], extra := [] }
    ∧ (combine_search_results
        { error := some "quota exceeded", organic_results := [], extra := [] }
        { error := none,
          organic_results :=
            [{ title := some "T", snippet := none,
               link := some "http://a.com", location := none }],
          extra := [] }).organic_results
      ≠ [{ title := some "T", snippet := none,
           link := some "http://a.com", location := none }]
    ∧ search_similar_pipeline
        { error := some "quota exceeded", organic_results := [], extra := [] }
        { error := none,
          organic_results :=
            [{ title := some "T", snippet := none,
               link := some "http://a.com", location := none }],
          extra := [] }
        { location := "X", contract_type := "service", key_terms := [] }
      = SimilarOutcome.err "quota exceeded" := by
  refine ⟨rfl, ?_, rfl⟩
  decide

/-- C1 (amended): when the primary gateway response carries an error,
`combine_search_results` returns the primary error response unchanged
(discarding the targeted results), and the pipeline produces the
top-level `{"error": message}` payload with the primary's error
message. -/
theorem claim1_amended (p t : SearchResponse) (a : Analysis) (e : String)
    (hp : p.error = some e) :
    combine_search_results p t = p
    ∧ search_similar_pipeline p t a = SimilarOutcome.err e := by
  have hc : combine_search_results p t = p := by
    simp [combine_search_results, hp]
  exact ⟨hc, by simp [search_similar_pipeline, hc, hp]⟩

/-- Witness for C1 (amended) at the scenario's concrete input. -/
theorem claim1_witness :
    combine_search_results
        { error := some "quota exceeded", organic_results := [], extra := [] }
        { error := none,
          organic_results :=
            [{ title := some "T", snippet := none,
               link := some "http://a.com", location := none }],
          extra := [] }
      = { error := some "quota exceeded", organic_results := [], extra := [] }
    ∧ search_similar_pipeline
        { error := some "quota exceeded", organic_results := [], extra := [] }
        { error := none,
          organic_results :=
            [{ title := some "T", snippet := none,
               link := some "http://a.com", location := none }],
          extra := [] }
        { location := "X", contract_type := "service", key_terms := [] }
      = SimilarOutcome.err "quota exceeded" :=
  claim1_amended
    { error := some "quota exceeded", organic_results := [], extra := [] }
    { error := none,
      organic_results :=
        [{ title := some "T", snippet := none,
           link := some "http://a.com", location := none }],
      extra := [] }
    { location := "X", contract_type := "service", key_terms := [] }
    "quota exceeded" rfl

/-- C2: if the primary raw result set carries an error,
`combine_search_results` propagates exactly the primary response (hence
the primary's error value) and the pipeline substitutes the
`{"error": message}` value in place of the similar-contracts list (it is
a returned value of the total function, not an exception); if only the
targeted set carries an error, the merge returns the primary set alone,
whose error field is `none`, and the pipeline formats the primary
results. -/
theorem claim2_error_propagation (p t : SearchResponse) (a : Analysis) :
    (∀ e, p.error = some e →
      combine_search_results p t = p
      ∧ search_similar_pipeline p t a = SimilarOutcome.err e)
    ∧ (p.error = none → t.error.isSome = true →
      combine_search_results p t = p
      ∧ (combine_search_results p t).error = none
      ∧ search_similar_pipeline p t a
          = SimilarOutcome.docs (format_legal_results p a)) := by
  constructor
  · intro e hp
    have hc : combine_search_results p t = p := by
      simp [combine_search_results, hp]
    exact ⟨hc, by simp [search_similar_pipeline, hc, hp]⟩
  · intro hp ht
    have hc : combine_search_results p t = p := by
      simp [combine_search_results, hp, ht]
    refine ⟨hc, by rw [hc, hp], ?_⟩
    simp [search_similar_pipeline, hc, hp]

/-- Witness for C2 at concrete inputs exercising both hypotheses. -/
theorem claim2_witness :
    (combine_search_results
        { error := some "boom", organic_results := [], extra := [] }
        { error := none, organic_results := [], extra := [] }
      = { error := some "boom", organic_results := [], extra := [] }
    ∧ search_similar_pipeline
        { error := some "boom", organic_results := [], extra := [] }
        { error := none, organic_results := [], extra := [] }
        { location := "X", contract_type := "service", key_terms := [] }
      = SimilarOutcome.err "boom")
    ∧ (combine_search_results
        { error := none,
          organic_results :=
            [{ title := some "P", snippet := none,
               link := some "http://p.com", location := none }],
          extra := [] }
        { error := some "targeted down", organic_results := [], extra := [] }
      = { error := none,
          organic_results :=
            [{ title := some "P", snippet := none,
               link := some "http://p.com", location := none }],
          extra := [] }
    ∧ (combine_search_results
        { error := none,
          organic_results :=
            [{ title := some "P", snippet := none,
               link := some "http://p.com", location := none }],
          extra := [] }
        { error := some "targeted down", organic_results := [], extra := [] }).error
      = none
    ∧ search_similar_pipeline
        { error := none,
          organic_results :=
            [{ title := some "P", snippet := none,
               link := some "http://p.com", location := none }],
          extra := [] }
        { error := some "targeted down", organic_results := [], extra := [] }
        { location := "X", contract_type := "service", key_terms := [] }
      = SimilarOutcome.docs
          (format_legal_results
            { error := none,
              organic_results :=
                [{ title := some "P", snippet := none,
                   link := some "http://p.com", location := none }],
              extra := [] }
            { location := "X", contract_type := "service", key_terms := [] })) :=
  ⟨(claim2_error_propagation
      { error := some "boom", organic_results := [], extra := [] }
      { error := none, organic_results := [], extra := [] }
      { location := "X", contract_type := "service", key_terms := [] }).1
    "boom" rfl,
   (claim2_error_propagation
      { error := none,
        organic_results :=
          [{ title := some "P", snippet := none,
             link := some "http://p.com", location := none }],
        extra := [] }
      { error := some "targeted down", organic_results := [], extra := [] }
      { location := "X", contract_type := "service", key_terms := [] }).2
    rfl rfl⟩

/-- C10: for error-free inputs, `combine_search_results` copies the
primary response and overwrites only its `organic_results` entry; the
error field and all other metadata of the primary response pass through
unchanged, and the targeted response contributes no metadata. -/
theorem claim10_frame (p t : SearchResponse)
    (hp : p.error = none) (ht : t.error = none) :
    (combine_search_results p t).error = p.error
    ∧ (combine_search_results p t).extra = p.extra := by
  constructor <;> simp [combine_search_results, hp, ht]

/-- Witness for C10 at a concrete error-free pair. -/
theorem claim10_witness :
    (combine_search_results
        { error := none,
          organic_results :=
            [{ title := some "P", snippet := none,
               link := some "http://p.com", location := none }],
          extra := [("search_metadata", "m1")] }
        { error := none,
          organic_results :=
            [{ title := some "T", snippet := none,
               link := some "http://t.com", location := none }],
          extra := [("search_metadata", "m2")] }).error
      = ({ error := none,
           organic_results :=
             [{ title := some "P", snippet := none,
                link := some "http://p.com", location := none }],
           extra := [("search_metadata", "m1")] } : SearchResponse).error
    ∧ (combine_search_results
        { error := none,
          organic_results :=
            [{ title := some "P", snippet := none,
               link := some "http://p.com", location := none }],
          extra := [("search_metadata", "m1")] }
        { error := none,
          organic_results :=
            [{ title := some "T", snippet := none,
               link := some "http://t.com", location := none }],
          extra := [("search_metadata", "m2")] }).extra
      = ({ error := none,
           organic_results :=
             [{ title := some "P", snippet := none,
                link := some "http://p.com", location := none }],
           extra := [("search_metadata", "m1")] } : SearchResponse).extra :=
  claim10_frame
    { error := none,
      organic_results :=
        [{ title := some "P", snippet := none,
           link := some "http://p.com", location := none }],
      extra := [("search_metadata", "m1")] }
    { error := none,
      organic_results :=
        [{ title := some "T", snippet := none,
           link := some "http://t.com", location := none }],
      extra := [("search_metadata", "m2")] }
    rfl rfl

/-- C3: for error-free inputs, the merged organic sequence has pairwise
distinct URLs, splits as kept-targeted records followed by kept-primary
records with each group a subsequence of its input (so relative order is
preserved), keeps a record for every input URL, and whenever a merged
record's URL occurs among the targeted results the surviving record is
the targeted set's record. -/
theorem claim3_merge_dedup (p t : SearchResponse)
    (hp : p.error = none) (ht : t.error = none) :
    (((combine_search_results p t).organic_results.map urlOf).Nodup)
    ∧ (∃ kt kp, (combine_search_results p t).organic_results = kt ++ kp
        ∧ kt.Sublist t.organic_results ∧ kp.Sublist p.organic_results)
    ∧ (∀ r ∈ (combine_search_results p t).organic_results,
        urlOf r ∈ t.organic_results.map urlOf → r ∈ t.organic_results)
    ∧ (∀ x, x ∈ t.organic_results ++ p.organic_results →
        urlOf x ∈ (combine_search_results p t).organic_results.map urlOf) := by
  have heq := combine_organic_eq p t hp ht
  set kt := dedupFrom [] t.organic_results with hkt
  set S := seenAfter [] t.organic_results with hS
  set kp := dedupFrom S p.organic_results with hkp
  have hktS : ∀ r ∈ kt, urlOf r ∈ S := by
    intro r hr
    exact dedupFrom_url_seenAfter t.organic_results [] r hr
  have hkpS : ∀ r ∈ kp, urlOf r ∉ S := by
    intro r hr
    exact dedupFrom_url_not_seen p.organic_results S r hr
  refine ⟨?_, ⟨kt, kp, heq, dedupFrom_sublist _ _, dedupFrom_sublist _ _⟩, ?_, ?_⟩
  · rw [heq, List.map_append]
    rw [List.nodup_append]
    refine ⟨dedupFrom_urls_nodup _ _, dedupFrom_urls_nodup _ _, ?_⟩
    intro u hu hu2
    rcases List.mem_map.mp hu with ⟨r, hr, rfl⟩
    rcases List.mem_map.mp hu2 with ⟨r2, hr2, he2⟩
    exact hkpS r2 hr2 (he2 ▸ hktS r hr)
  · intro r hr hurl
    rw [heq] at hr
    rcases List.mem_append.mp hr with hr | hr
    · exact (dedupFrom_sublist t.organic_results []).subset hr
    · exfalso
      rcases List.mem_map.mp hurl with ⟨x, hx, he⟩
      have hxS : urlOf x ∈ S := mem_seenAfter_of_mem t.organic_results [] x hx
      exact hkpS r hr (he ▸ hxS)
  · intro x hx
    rw [heq, List.map_append]
    have fromS : ∀ u, u ∈ S → u ∈ kt.map urlOf := by
      intro u hu
      rcases mem_of_seenAfter t.organic_results [] u hu with h | h
      · simp at h
      · exact h
    rcases List.mem_append.mp hx with hx | hx
    · exact List.mem_append.mpr (Or.inl (fromS _ (mem_seenAfter_of_mem _ _ _ hx)))
    · have hxs : urlOf x ∈ seenAfter S p.organic_results :=
        mem_seenAfter_of_mem p.organic_results S x hx
      rcases mem_of_seenAfter p.organic_results S _ hxs with h | h
      · exact List.mem_append.mpr (Or.inl (fromS _ h))
      · exact List.mem_append.mpr (Or.inr h)

/-- Witness for C3: the merge of a concrete error-free pair sharing one
URL across the two sets. -/
theorem claim3_witness :
    (((combine_search_results
        { error := none,
          organic_results :=
            [{ title := some "P1", snippet := none,
               link := some "http://shared.com/x", location := none },
             { title := some "P2", snippet := none,
               link := some "http://only-primary.com", location := none }],
          extra := [] }
        { error := none,
          organic_results :=
            [{ title := some "T1", snippet := none,
               link := some "http://shared.com/x", location := none }],
          extra := [] }).organic_results.map urlOf).Nodup)
    ∧ (∃ kt kp, (combine_search_results
        { error := none,
          organic_results :=
            [{ title := some "P1", snippet := none,
               link := some "http://shared.com/x", location := none },
             { title := some "P2", snippet := none,
               link := some "http://only-primary.com", location := none }],
          extra := [] }
        { error := none,
          organic_results :=
            [{ title := some "T1", snippet := none,
               link := some "http://shared.com/x", location := none }],
          extra := [] }).organic_results = kt ++ kp
        ∧ kt.Sublist
            [{ title := some "T1", snippet := none,
               link := some "http://shared.com/x", location := none }]
        ∧ kp.Sublist
            [{ title := some "P1", snippet := none,
               link := some "http://shared.com/x", location := none },
             { title := some "P2", snippet := none,
               link := some "http://only-primary.com", location := none }])
    ∧ (∀ r ∈ (combine_search_results
        { error := none,
          organic_results :=
            [{ title := some "P1", snippet := none,
               link := some "http://shared.com/x", location := none },
             { title := some "P2", snippet := none,
               link := some "http://only-primary.com", location := none }],
          extra := [] }
        { error := none,
          organic_results :=
            [{ title := some "T1", snippet := none,
               link := some "http://shared.com/x", location := none }],
          extra := [] }).organic_results,
        urlOf r ∈ [{ title := some "T1", snippet := none,
                     link := some "http://shared.com/x",
                     location := none }].map urlOf →
          r ∈ [{ title := some "T1", snippet := none,
                 link := some "http://shared.com/x", location := none }])
    ∧ (∀ x, x ∈ [({ title := some "T1", snippet := none,
                    link := some "http://shared.com/x",
                    location := none } : SearchResult)] ++
              [{ title := some "P1", snippet := none,
                 link := some "http://shared.com/x", location := none },
               { title := some "P2", snippet := none,
                 link := some "http://only-primary.com", location := none }] →
        urlOf x ∈ (combine_search_results
        { error := none,
          organic_results :=
            [{ title := some "P1", snippet := none,
               link := some "http://shared.com/x", location := none },
             { title := some "P2", snippet := none,
               link := some "http://only-primary.com", location := none }],
          extra := [] }
        { error := none,
          organic_results :=
            [{ title := some "T1", snippet := none,
               link := some "http://shared.com/x", location := none }],
          extra := [] }).organic_results.map urlOf) :=
  claim3_merge_dedup
    { error := none,
      organic_results :=
        [{ title := some "P1", snippet := none,
           link := some "http://shared.com/x", location := none },
         { title := some "P2", snippet := none,
           link := some "http://only-primary.com", location := none }],
      extra := [] }
    { error := none,
      organic_results :=
        [{ title := some "T1", snippet := none,
           link := some "http://shared.com/x", location := none }],
      extra := [] }
    rfl rfl

/-- Modelled from the words of claim C4, for comparison with the code:
the same rubric but with the contract type matched fully
case-insensitively (lowercased before the substring test), as the claim
asserts. -/
def relevanceClaimC4 (result : SearchResult) (analysis : Analysis) : String :=
  let text := resultText result
  let score :=
    (if strIn (pyLower analysis.contract_type) text then 3 else 0)
    + (if strIn (pyLower analysis.location) text then 2 else 0)
    + (analysis.key_terms.filter (fun term => strIn (pyLower term) text)).length
  if score ≥ 4 then "High" else if score ≥ 2 then "Medium" else "Low"

/-- C4: the claim asserts the contract-type bonus is awarded on a
case-insensitive substring match.  The code lowercases only the
title+snippet text, not the contract type, so an upper-case contract type
never matches: at this concrete input the claimed rubric yields "Medium"
while the code yields "Low". -/
theorem claim4_counterexample :
    calculate_relevance
        { title := some "Employment Agreement", snippet := some "",
          link := none, location := none }
        { location := "Nowhere", contract_type := "EMPLOYMENT", key_terms := [] }
      = "Low"
    ∧ relevanceClaimC4
        { title := some "Employment Agreement", snippet := some "",
          link := none, location := none }
        { location := "Nowhere", contract_type := "EMPLOYMENT", key_terms := [] }
      = "Medium"
    ∧ ("Low" : String) ≠ "Medium" := by
  refine ⟨by decide, by decide, by decide⟩

/-- Modelled from the amended claim C4: identical rubric except the
contract type is matched verbatim (not lowercased) against the
lowercased title+snippet text, while the location and each key term are
lowercased before matching. -/
def relevanceAmendedC4 (result : SearchResult) (analysis : Analysis) : String :=
  let text := resultText result
  let score :=
    (if strIn analysis.contract_type text then 3 else 0)
    + (if strIn (pyLower analysis.location) text then 2 else 0)
    + (analysis.key_terms.filter (fun term => strIn (pyLower term) text)).length
  if score ≥ 4 then "High" else if score ≥ 2 then "Medium" else "Low"

theorem foldl_count_matches (text : String) (l : List String) :
    ∀ s : Nat,
      l.foldl (fun s term => if strIn (pyLower term) text then s + 1 else s) s
        = s + (l.filter (fun term => strIn (pyLower term) text)).length := by
  induction l with
  | nil => intro s; simp
  | cons x xs ih =>
    intro s
    by_cases h : strIn (pyLower x) text
    · simp only [List.foldl_cons, List.filter_cons, h, if_pos, ih (s + 1),
        List.length_cons]
      omega
    · simp only [List.foldl_cons, List.filter_cons, h, if_neg,
        Bool.false_eq_true, not_false_iff, ih s]

/-- C4 (amended): `calculate_relevance` scores exactly 3 for a verbatim
contract-type hit against the lowercased title+snippet (case-insensitive
only in the text, not the contract type), 2 for a case-insensitive
location hit with no sentinel guard, 1 per case-insensitive key-term hit,
and tiers the score at 4 and 2. -/
theorem claim4_amended (result : SearchResult) (analysis : Analysis) :
    calculate_relevance result analysis = relevanceAmendedC4 result analysis := by
  unfold calculate_relevance relevanceAmendedC4 tierOf relevanceScore
  rw [foldl_count_matches]

theorem tierRank_tierOf_mono {s1 s2 : Nat} (h : s1 ≤ s2) :
    tierRank (tierOf s1) ≤ tierRank (tierOf s2) := by
  unfold tierOf
  split_ifs <;> simp [tierRank] <;> omega

/-- C9: relevance scoring is deterministic and monotone in matching key
terms: appending one additional key term that occurs (case-insensitively)
in the result's title+snippet text raises the raw score by exactly 1, so
the tier (ordered Low < Medium < High by `tierRank`) never decreases; and
identical inputs always produce identical tiers. -/
theorem claim9_monotone (result : SearchResult) (a : Analysis) (t : String)
    (h : strIn (pyLower t) (resultText result) = true) :
    relevanceScore result
        { location := a.location, contract_type := a.contract_type,
          key_terms := a.key_terms ++ [t] }
      = relevanceScore result a + 1
    ∧ tierRank (calculate_relevance result a)
        ≤ tierRank (calculate_relevance result
            { location := a.location, contract_type := a.contract_type,
              key_terms := a.key_terms ++ [t] })
    ∧ (∀ r2 a2, r2 = result → a2 = a →
        calculate_relevance r2 a2 = calculate_relevance result a) := by
  have hscore : relevanceScore result
      { location := a.location, contract_type := a.contract_type,
        key_terms := a.key_terms ++ [t] }
    = relevanceScore result a + 1 := by
    unfold relevanceScore
    rw [List.foldl_append]
    simp [h]
  refine ⟨hscore, ?_, ?_⟩
  · unfold calculate_relevance
    rw [hscore]
    exact tierRank_tierOf_mono (Nat.le_succ _)
  · intro r2 a2 hr ha
    rw [hr, ha]

/-- Witness for C9 at a concrete result, analysis and matching term. -/
theorem claim9_witness :
    relevanceScore
        { title := some "Employment Agreement", snippet := some "sample",
          link := none, location := none }
        { location := "Nowhere", contract_type := "employment",
          key_terms := ["agreement"] }
      = relevanceScore
          { title := some "Employment Agreement", snippet := some "sample",
            link := none, location := none }
          { location := "Nowhere", contract_type := "employment",
            key_terms := [] } + 1
    ∧ tierRank (calculate_relevance
        { title := some "Employment Agreement", snippet := some "sample",
          link := none, location := none }
        { location := "Nowhere", contract_type := "employment",
          key_terms := [] })
      ≤ tierRank (calculate_relevance
          { title := some "Employment Agreement", snippet := some "sample",
            link := none, location := none }
          { location := "Nowhere", contract_type := "employment",
            key_terms := ["agreement"] })
    ∧ (∀ r2 a2,
        r2 = ({ title := some "Employment Agreement", snippet := some "sample",
                link := none, location := none } : SearchResult) →
        a2 = ({ location := "Nowhere", contract_type := "employment",
                key_terms := [] } : Analysis) →
        calculate_relevance r2 a2
          = calculate_relevance
              { title := some "Employment Agreement", snippet := some "sample",
                link := none, location := none }
              { location := "Nowhere", contract_type := "employment",
                key_terms := [] }) :=
  claim9_monotone
    { title := some "Employment Agreement", snippet := some "sample",
      link := none, location := none }
    { location := "Nowhere", contract_type := "employment", key_terms := [] }
    "agreement" (by decide)

theorem prioritize_foldl_eq (l : List SearchResult) :
    ∀ d w, l.foldl
        (fun dw r =>
          if isDirectRes r then (dw.1 ++ [r], dw.2) else (dw.1, dw.2 ++ [r]))
        (d, w)
      = (d ++ l.filter isDirectRes, w ++ l.filter (fun r => !(isDirectRes r))) := by
  induction l with
  | nil => intro d w; simp
  | cons x xs ih =>
    intro d w
    by_cases h : isDirectRes x = true
    · simp [List.foldl_cons, List.filter_cons, h, ih]
    · simp [List.foldl_cons, List.filter_cons, h, ih]

theorem prioritize_eq_filter (l : List SearchResult) :
    prioritize_document_links l
      = l.filter isDirectRes ++ l.filter (fun r => !(isDirectRes r)) := by
  unfold prioritize_document_links
  rw [prioritize_foldl_eq l [] []]
  simp

/-- C6: for every analysis and every merged result sequence,
`format_legal_results` produces at most 12 records, and those records are
exactly the first 12 entries of the prioritized sequence (direct-document
results first, then web-page results, each group in input order), each
passed through the per-result formatting step. -/
theorem claim6_cap (sr : SearchResponse) (a : Analysis) :
    (format_legal_results sr a).length ≤ 12
    ∧ format_legal_results sr a
      = ((sr.organic_results.filter isDirectRes
          ++ sr.organic_results.filter (fun r => !(isDirectRes r))).take 12).map
          (formatOne a) := by
  unfold format_legal_results
  by_cases h : sr.organic_results.isEmpty
  · have h0 : sr.organic_results = [] := List.isEmpty_iff.mp h
    simp [h, h0]
  · simp only [h, Bool.false_eq_true, if_neg, not_false_iff,
      prioritize_eq_filter]
    constructor
    · rw [List.length_map]
      exact le_trans (List.length_take_le _ _) (le_refl _)
    · trivial

theorem pickMax_mem (l : List (String × Nat)) :
    ∀ x, pickMax x l ∈ x :: l := by
  induction l with
  | nil => intro x; simp [pickMax]
  | cons y ys ih =>
    intro x
    by_cases h : y.2 > x.2
    · simp only [pickMax, h, if_pos]
      exact List.mem_cons_of_mem x (ih y)
    · simp only [pickMax, h, if_neg, not_false_iff]
      rcases List.mem_cons.mp (ih x) with h1 | h1
      · rw [h1]; exact List.mem_cons_self _ _
      · exact List.mem_cons_of_mem x (List.mem_cons_of_mem y h1)

theorem pickMax_ge (l : List (String × Nat)) :
    ∀ x y, y ∈ x :: l → y.2 ≤ (pickMax x l).2 := by
  induction l with
  | nil =>
    intro x y hy
    rcases List.mem_cons.mp hy with rfl | hy
    · simp [pickMax]
    · simp at hy
  | cons z zs ih =>
    intro x y hy
    by_cases h : z.2 > x.2
    · simp only [pickMax, h, if_pos]
      rcases List.mem_cons.mp hy with rfl | hy
      · exact le_trans (le_of_lt h) (ih z z (List.mem_cons_self _ _))
      · exact ih z y hy
    · simp only [pickMax, h, if_neg, not_false_iff]
      rcases List.mem_cons.mp hy with rfl | hy
      · exact ih _ _ (List.mem_cons_self _ _)
      · rcases List.mem_cons.mp hy with rfl | hy
        · exact le_trans (Nat.le_of_not_lt h) (ih x x (List.mem_cons_self _ _))
        · exact ih x y (List.mem_cons_of_mem x hy)

theorem pickMax_first (l : List (String × Nat)) :
    ∀ x, ∃ l1 l2, x :: l = l1 ++ pickMax x l :: l2
      ∧ ∀ y ∈ l1, y.2 < (pickMax x l).2 := by
  induction l with
  | nil =>
    intro x
    exact ⟨[], [], by simp [pickMax], by simp⟩
  | cons z zs ih =>
    intro x
    by_cases h : z.2 > x.2
    · obtain ⟨l1, l2, heq, hlt⟩ := ih z
      refine ⟨x :: l1, l2, ?_, ?_⟩
      · simp only [pickMax, h, if_pos]
        rw [List.cons_append]
        exact congrArg (x :: ·) heq
      · intro y hy
        simp only [pickMax, h, if_pos]
        rcases List.mem_cons.mp hy with rfl | hy
        · exact lt_of_lt_of_le h (pickMax_ge zs z z (List.mem_cons_self _ _))
        · exact hlt y hy
    · obtain ⟨l1, l2, heq, hlt⟩ := ih x
      cases l1 with
      | nil =>
        simp only [List.nil_append] at heq
        refine ⟨[], z :: zs, ?_, by simp⟩
        simp only [pickMax, h, if_neg, not_false_iff, List.nil_append]
        have hx : pickMax x zs = x := by
          have := heq
          injection this with h1 h2
          exact h1.symm
        rw [hx]
      | cons w l1t =>
        simp only [List.cons_append] at heq
        injection heq with h1 h2
        refine ⟨x :: z :: l1t, l2, ?_, ?_⟩
        · simp only [pickMax, h, if_neg, not_false_iff]
          rw [List.cons_append, List.cons_append]
          exact congrArg (x :: z :: ·) h2
        · intro y hy
          simp only [pickMax, h, if_neg, not_false_iff]
          have hxlt : x.2 < (pickMax x zs).2 := by
            have hw := hlt w (List.mem_cons_self _ _)
            rw [← h1] at hw
            exact hw
          rcases List.mem_cons.mp hy with rfl | hy
          · exact hxlt
          · rcases List.mem_cons.mp hy with rfl | hy
            · exact lt_of_le_of_lt (Nat.le_of_not_lt h) hxlt
            · exact hlt y (List.mem_cons_of_mem w hy)

theorem filterMap_decomp {α β : Type} (f : α → Option β) :
    ∀ (l : List α) s1 r s2, l.filterMap f = s1 ++ r :: s2 →
      ∃ t1 q t2, l = t1 ++ q :: t2 ∧ t1.filterMap f = s1
        ∧ f q = some r ∧ t2.filterMap f = s2 := by
  intro l
  induction l with
  | nil =>
    intro s1 r s2 h
    rw [List.filterMap_nil] at h
    exact absurd h.symm (List.append_ne_nil_of_right_ne_nil s1 (by simp))
  | cons a as ih =>
    intro s1 r s2 h
    cases hfa : f a with
    | none =>
      rw [List.filterMap_cons_none hfa] at h
      obtain ⟨t1, q, t2, heq, h1, h2, h3⟩ := ih s1 r s2 h
      exact ⟨a :: t1, q, t2, by rw [heq, List.cons_append],
        by rw [List.filterMap_cons_none hfa]; exact h1, h2, h3⟩
    | some b =>
      rw [List.filterMap_cons_some hfa] at h
      cases s1 with
      | nil =>
        simp only [List.nil_append] at h
        injection h with hb hrest
        exact ⟨[], a, as, rfl, rfl, by rw [hfa, hb], hrest⟩
      | cons c s1t =>
        simp only [List.cons_append] at h
        injection h with hb hrest
        obtain ⟨t1, q, t2, heq, h1, h2, h3⟩ := ih s1t r s2 hrest
        refine ⟨a :: t1, q, t2, by rw [heq, List.cons_append], ?_, h2, h3⟩
        rw [List.filterMap_cons_some hfa, h1, hb]

/-- C5: for every contract text, `determine_contract_type` either
returns `"general contract"` (exactly when no category scores a keyword
hit), or returns the name of a category with a positive hit count that is
greater than or equal to every other category's hit count, the tie being
broken in favour of the earliest such category in table definition order
(every earlier category scores strictly fewer hits). -/
theorem claim5_contract_type (text : String) :
    ((∀ p ∈ contractTypesTable, hitCount (pyLower text) p.2 = 0)
      ∧ determine_contract_type text = "general contract")
    ∨ (∃ l1 q l2, contractTypesTable = l1 ++ q :: l2
        ∧ determine_contract_type text = q.1
        ∧ 0 < hitCount (pyLower text) q.2
        ∧ (∀ p ∈ contractTypesTable,
            hitCount (pyLower text) p.2 ≤ hitCount (pyLower text) q.2)
        ∧ (∀ p ∈ l1, hitCount (pyLower text) p.2 < hitCount (pyLower text) q.2)) := by
  cases hscores : contractTypesTable.filterMap (typeScore (pyLower text)) with
  | nil =>
    left
    have hall := List.filterMap_eq_nil_iff.mp hscores
    constructor
    · intro p hp
      have h2 := hall p hp
      by_contra hne
      have hpos : hitCount (pyLower text) p.2 > 0 := Nat.pos_of_ne_zero hne
      simp [typeScore, hpos] at h2
    · simp only [determine_contract_type]
      rw [hscores]
  | cons x xs =>
    right
    obtain ⟨s1, s2, hdec, hlt⟩ := pickMax_first xs x
    have hscores2 : contractTypesTable.filterMap (typeScore (pyLower text))
        = s1 ++ pickMax x xs :: s2 := by
      rw [hscores]; exact hdec
    obtain ⟨t1, q, t2, hteq, ht1, hfq, ht2⟩ :=
      filterMap_decomp (typeScore (pyLower text)) contractTypesTable
        s1 (pickMax x xs) s2 hscores2
    have hqpos : 0 < hitCount (pyLower text) q.2
        ∧ pickMax x xs = (q.1, hitCount (pyLower text) q.2) := by
      by_cases hq : hitCount (pyLower text) q.2 > 0
      · simp only [typeScore, hq, if_pos] at hfq
        exact ⟨hq, by injection hfq with h; exact h.symm⟩
      · simp [typeScore, hq] at hfq
    have hdet : determine_contract_type text = q.1 := by
      simp only [determine_contract_type]
      rw [hscores]
      show (pickMax x xs).1 = q.1
      rw [hqpos.2]
    refine ⟨t1, q, t2, hteq, hdet, hqpos.1, ?_, ?_⟩
    · intro p hp
      by_cases hppos : hitCount (pyLower text) p.2 > 0
      · have hmem : (p.1, hitCount (pyLower text) p.2)
            ∈ contractTypesTable.filterMap (typeScore (pyLower text)) := by
          apply List.mem_filterMap.mpr
          exact ⟨p, hp, by simp [typeScore, hppos]⟩
        rw [hscores] at hmem
        have := pickMax_ge xs x (p.1, hitCount (pyLower text) p.2) hmem
        rw [hqpos.2] at this
        exact this
      · have : hitCount (pyLower text) p.2 = 0 := Nat.eq_zero_of_not_pos hppos
        omega
    · intro p hp
      by_cases hppos : hitCount (pyLower text) p.2 > 0
      · have hmem : (p.1, hitCount (pyLower text) p.2)
            ∈ t1.filterMap (typeScore (pyLower text)) := by
          apply List.mem_filterMap.mpr
          exact ⟨p, hp, by simp [typeScore, hppos]⟩
        rw [ht1] at hmem
        have := hlt (p.1, hitCount (pyLower text) p.2) hmem
        rw [hqpos.2] at this
        exact this
      · have : hitCount (pyLower text) p.2 = 0 := Nat.eq_zero_of_not_pos hppos
        omega


/-- C7: the claim asserts that only a *leading* `www.` prefix is removed
from the parsed authority, so an interior occurrence is left intact.  The
code calls Python `str.replace`, which removes every occurrence: for this
URL the authority is `blog.www.example.com` (no leading `www.`), yet the
function returns `blog.example.com` instead of the authority unchanged. -/
theorem claim7_counterexample :
    parseNetloc "http://blog.www.example.com/page" = some "blog.www.example.com"
    ∧ extract_domain "http://blog.www.example.com/page" = "blog.example.com"
    ∧ extract_domain "http://blog.www.example.com/page" ≠ "blog.www.example.com" := by
  refine ⟨by decide, by decide, by decide⟩

/-- C7 (amended): `extract_domain` returns the parsed authority with
*every* left-to-right non-overlapping occurrence of `www.` removed (in
particular a leading one, as the last conjunct shows), returns the
sentinel `"Unknown"` when the authority is empty or parsing fails, and is
a total function (it never raises). -/
theorem claim7_amended (url netloc : String) :
    (parseNetloc url = none → extract_domain url = "Unknown")
    ∧ (parseNetloc url = some "" → extract_domain url = "Unknown")
    ∧ (parseNetloc url = some netloc → netloc ≠ "" →
        extract_domain url = pyRemoveWWW netloc)
    ∧ (∀ s : String, pyRemoveWWW ("www." ++ s) = pyRemoveWWW s) := by
  refine ⟨?_, ?_, ?_, ?_⟩
  · intro h
    unfold extract_domain
    rw [h]
  · intro h
    unfold extract_domain
    rw [h]
    simp
  · intro h hne
    unfold extract_domain
    rw [h]
    simp [hne]
  · intro s
    rfl

/-- Witness for C7 (amended) at a concrete URL with a leading `www.`. -/
theorem claim7_witness :
    extract_domain "https://www.sec.gov/doc.pdf" = pyRemoveWWW "www.sec.gov" :=
  (claim7_amended "https://www.sec.gov/doc.pdf" "www.sec.gov").2.2.1
    (by decide) (by decide)

/-- C8: the claim asserts the primary query contains the quoted location
exactly when the location differs from the sentinel.  The code also
requires the location to be truthy (non-empty): with an empty location
the quoted location is absent from the query parts although the empty
string differs from the sentinel. -/
theorem claim8_counterexample :
    ¬ ((quoteStr "" ∈ legalQueryParts
          { location := "", contract_type := "service", key_terms := [] })
        ↔ ("" : String) ≠ sentinelLocation) := by
  decide

/-- C8 (amended): the primary query parts consist of the contract-type
part, then the quoted location exactly when the location is non-empty and
differs from the sentinel, then the quoted key terms — each of which is a
key term of the analysis longer than 3 characters, at most 2 of them —
then the fixed legal terms; and the primary search requests 15 results. -/
theorem claim8_amended (a : Analysis) :
    legalQueryParts a
      = basePart a ::
          ((if a.location ≠ "" ∧ a.location ≠ sentinelLocation then
              [quoteStr a.location]
            else [])
            ++ keyTermParts a ++ legalTermsList)
    ∧ (∀ s ∈ keyTermParts a, ∃ t, t ∈ a.key_terms ∧ t.length > 3 ∧ s = quoteStr t)
    ∧ (keyTermParts a).length ≤ 2
    ∧ (prepare_legal_search_params a).num = 15 := by
  refine ⟨rfl, ?_, ?_, rfl⟩
  · intro s hs
    unfold keyTermParts at hs
    by_cases hc : a.key_terms.isEmpty || a.key_terms == ["Standard contract terms"]
    · rw [if_pos hc] at hs
      simp at hs
    · rw [if_neg hc] at hs
      rcases List.mem_map.mp hs with ⟨t, ht, rfl⟩
      have ht2 := List.mem_filter.mp ht
      refine ⟨t, ?_, by simpa using ht2.2, rfl⟩
      exact List.take_subset 2 a.key_terms ht2.1
  · unfold keyTermParts
    by_cases hc : a.key_terms.isEmpty || a.key_terms == ["Standard contract terms"]
    · rw [if_pos hc]
      simp
    · rw [if_neg hc]
      rw [List.length_map]
      exact le_trans (List.length_filter_le _ _)
        (le_trans (List.length_take_le _ _) (le_refl 2))

/-- Witness for C5 at the concrete text of end-to-end scenario 5 (no
keyword of any category occurs). -/
theorem claim5_witness :
    ((∀ p ∈ contractTypesTable, hitCount (pyLower "zzz qqq") p.2 = 0)
      ∧ determine_contract_type "zzz qqq" = "general contract")
    ∨ (∃ l1 q l2, contractTypesTable = l1 ++ q :: l2
        ∧ determine_contract_type "zzz qqq" = q.1
        ∧ 0 < hitCount (pyLower "zzz qqq") q.2
        ∧ (∀ p ∈ contractTypesTable,
            hitCount (pyLower "zzz qqq") p.2 ≤ hitCount (pyLower "zzz qqq") q.2)
        ∧ (∀ p ∈ l1,
            hitCount (pyLower "zzz qqq") p.2 < hitCount (pyLower "zzz qqq") q.2)) :=
  claim5_contract_type "zzz qqq"

/-- Witness for C8 (amended) at a concrete analysis with one long and one
short key term. -/
theorem claim8_witness :
    legalQueryParts
        { location := "California", contract_type := "service",
          key_terms := ["abc", "payment of 5000"] }
      = basePart
          { location := "California", contract_type := "service",
            key_terms := ["abc", "payment of 5000"] } ::
          ((if ("California" : String) ≠ ""
              ∧ ("California" : String) ≠ sentinelLocation then
              [quoteStr "California"]
            else [])
            ++ keyTermParts
                { location := "California", contract_type := "service",
                  key_terms := ["abc", "payment of 5000"] }
            ++ legalTermsList)
    ∧ (∃ t, t ∈ ["abc", "payment of 5000"] ∧ t.length > 3
        ∧ quoteStr "payment of 5000" = quoteStr t)
    ∧ (keyTermParts
        { location := "California", contract_type := "service",
          key_terms := ["abc", "payment of 5000"] }).length ≤ 2
    ∧ (prepare_legal_search_params
        { location := "California", contract_type := "service",
          key_terms := ["abc", "payment of 5000"] }).num = 15 :=
  ⟨(claim8_amended
      { location := "California", contract_type := "service",
        key_terms := ["abc", "payment of 5000"] }).1,
   (claim8_amended
      { location := "California", contract_type := "service",
        key_terms := ["abc", "payment of 5000"] }).2.1
     (quoteStr "payment of 5000") (by decide),
   (claim8_amended
      { location := "California", contract_type := "service",
        key_terms := ["abc", "payment of 5000"] }).2.2.1,
   (claim8_amended
      { location := "California", contract_type := "service",
        key_terms := ["abc", "payment of 5000"] }).2.2.2⟩
